import Mathlib

/-!
Verification development for `wikimedia_sync.py` (kelson42/wikifundi).

The script mirrors wiki pages from a source site to a destination site:
it expands category selectors into titles, collects template and file
dependencies, synchronizes pages (following redirects), uploads files, and
applies ordered regex substitutions to the synced pages.

Shallow embedding: the external wiki provider (pywikibot) is modelled by a
`World` of oracles fixing, for every title, the source text, redirect
target, transcluded templates, referenced files, category members, whether
the destination resolves the title to the right site, whether a write
succeeds, and whether the various provider calls raise exceptions.  The
destination wiki is an explicit association list threaded through every
operation.  Python exceptions are modelled by `PyResult`; the fuel
parameter on `syncPage` accounts for its unbounded recursion along source
redirect chains.
-/

set_option autoImplicit false

namespace WikimediaSync

abbrev Title := String

/-- The destination wiki's page store: newest write first. -/
abbrev DstState := List (Title × String)

/-- Python exceptions that the embedded control flow distinguishes. -/
inductive PyExn where
  /-- `UnboundLocalError`: a local variable read before any assignment. -/
  | unboundLocal (v : String)
  /-- An exception raised while constructing `Page(site, title)`. -/
  | pageCtor (t : Title)
  deriving Repr, DecidableEq

/-- Result of a Python call: a value, or an uncaught exception. -/
inductive PyResult (α : Type) where
  | val (a : α)
  | exn (e : PyExn)
  deriving Repr, DecidableEq

/-- Oracles for the external wiki provider (pywikibot) and for the
failure behaviour of its calls.  `srcText t` is `Page(src, t).text`
(pywikibot returns `""` for a missing page); `srcRedirect t` is
`some u` when `Page(src, t).isRedirectPage()` with target `u`;
`srcTemplates`/`srcFiles` are the title lists of `.templates()` /
`.imagelinks()`; `catMembers c ns r` lists `cat.articles(ns, recurse=r)`;
`siteOk t` is the `newPage.site == dst` check; `writeOk t` is whether
`dst.editpage` succeeds on `t`; `ctorRaisesSrc`/`ctorRaisesDst` model the
`Page(...)` constructors raising; `existsRaises` models
`newPage.exists()` raising inside the `try` block; `reSub p r s` is
`re.sub(p, r, s)`; `dstFileExists` is the initial destination file store. -/
structure World where
  srcText : Title → String
  srcRedirect : Title → Option Title
  srcTemplates : Title → List Title
  srcFiles : Title → List Title
  catMembers : Title → Int → Nat → List Title
  siteOk : Title → Bool
  writeOk : Title → Bool
  ctorRaisesSrc : Title → Bool
  ctorRaisesDst : Title → Bool
  existsRaises : Title → Bool
  reSub : String → String → String → String
  dstFileExists : Title → Bool

/-- Look a title up in the destination store. -/
def getPage : DstState → Title → Option String
  | [], _ => none
  | (k, v) :: rest, t => if k = t then some v else getPage rest t

/-- Commit a successful `dst.editpage`. -/
def writePage (d : DstState) (t : Title) (text : String) : DstState :=
  (t, text) :: d

/-- `list(set(l))`: duplicate elimination, as applied by the script to the
template, file and modification-target lists. -/
def dedupList : List Title → List Title
  | [] => []
  | t :: ts =>
    let r := dedupList ts
    if t ∈ r then r else t :: r

/-- `syncPage(src, dst, pageTitle, force, checkRedirect)`.

The two `Page(...)` constructions happen before the `try` block, so a
constructor exception escapes as `.exn`.  Inside the `try`:
`if not force and newPage.exists(): return False` (short-circuit: with
`force` the `exists()` call never runs), `elif newPage.site == dst:` sync
the redirect target recursively (result ignored, exceptions caught by this
frame's `except`), copy the text and `return dst.editpage(newPage)`;
otherwise fall through to the final `return False`.  Every exception
raised inside the `try` is caught and turned into `False`.  The fuel
argument bounds the redirect recursion; `none` means the recursion did not
terminate within the given fuel. -/
def syncPage (w : World) (force : Bool) :
    Nat → Bool → Title → DstState → Option (PyResult Bool × DstState)
  | 0, _, _, _ => none
  | fuel+1, _checkRedirect, title, dst =>
    if w.ctorRaisesSrc title || w.ctorRaisesDst title then
      some (.exn (.pageCtor title), dst)
    else if !force && w.existsRaises title then
      some (.val false, dst)
    else if !force && (getPage dst title).isSome then
      some (.val false, dst)
    else if w.siteOk title then
      match (match w.srcRedirect title with
             | none => (some (.val false, dst) : Option (PyResult Bool × DstState))
             | some tgt => syncPage w force fuel false tgt dst) with
      | none => none
      | some (.exn _, d) => some (.val false, d)
      | some (.val _, d) =>
        if w.writeOk title then
          some (.val true, writePage d title (w.srcText title))
        else
          some (.val false, d)
    else
      some (.val false, dst)

/-- `syncPages(src, dst, pages, force)`: per-title `syncPage` in list
order, counting successes.  An exception escaping `syncPage` aborts the
whole batch (there is no `try` in this loop). -/
def syncPages (w : World) (force : Bool) (fuel : Nat) :
    List Title → DstState → Option (PyResult Nat × DstState)
  | [], dst => some (.val 0, dst)
  | t :: ts, dst =>
    match syncPage w force fuel true t dst with
    | none => none
    | some (.exn e, d) => some (.exn e, d)
    | some (.val b, d) =>
      match syncPages w force fuel ts d with
      | none => none
      | some (.exn e, d') => some (.exn e, d')
      | some (.val n, d') => some (.val ((if b then 1 else 0) + n), d')

/-- `getTemplatesFromPages(siteSrc, pages)`: union of the template lists,
then `list(set(...))`. -/
def getTemplatesFromPages (w : World) (pages : List Title) : List Title :=
  dedupList (pages.foldl (fun acc p => acc ++ w.srcTemplates p) [])

/-- `getFilesFromPages(siteSrc, pages)`: union of the image-link lists,
then `list(set(...))`. -/
def getFilesFromPages (w : World) (pages : List Title) : List Title :=
  dedupList (pages.foldl (fun acc p => acc ++ w.srcFiles p) [])

/-- `uploadFiles(src, dst, files)`: upload each file that does not already
exist on the destination; every error is caught inside the loop.  The
state is the list of uploaded file titles. -/
def uploadFiles (w : World) (files : List Title) (fs : List Title) : List Title :=
  files.foldl (fun acc t =>
    if w.dstFileExists t || acc.contains t then acc else acc ++ [t]) fs

/-- `modifyPage(dst, pageTitle, subs)`: read the destination text (pywikibot
yields `""` for a missing page), apply the substitutions sequentially, and
commit with `dst.editpage`; exceptions are caught inside and yield
`False`. -/
def modifyPage (w : World) (pageTitle : Title) (subs : List (String × String))
    (d : DstState) : Bool × DstState :=
  let t0 := (getPage d pageTitle).getD ""
  let t1 := subs.foldl (fun t s => w.reSub s.1 s.2 t) t0
  if w.writeOk pageTitle then (true, writePage d pageTitle t1) else (false, d)

/-- `modifyPages(dst, pages, subs)`: apply `modifyPage` per title, counting
successes. -/
def modifyPages (w : World) (pages : List Title) (subs : List (String × String))
    (d : DstState) : Nat × DstState :=
  pages.foldl (fun acc t =>
    let r := modifyPage w t subs acc.2
    (acc.1 + (if r.1 then 1 else 0), r.2)) (0, d)

/-- The script's run options (`DEFAULT_OPTIONS` dict). -/
structure Options where
  force : Bool
  templatesSync : Bool
  templatesDepSync : Bool
  filesUpload : Bool
  exportDir : String
  deriving Repr, DecidableEq

def DEFAULT_OPTIONS : Options :=
  { force := false
    templatesSync := true
    templatesDepSync := true
    filesUpload := true
    exportDir := "." }

/-- One iteration of the option-parsing loop in `main` (the `if` chains
are not exclusive; `-h` is handled in `parseLoop`). -/
def applyOpt (o : Options) (oa : String × String) : Options :=
  let o := if oa.1 = "-f" || oa.1 = "--force" then { o with force := true } else o
  let o := if oa.1 = "-t" || oa.1 = "--no-sync-templates" then
    { o with templatesSync := false } else o
  let o := if oa.1 = "-d" || oa.1 = "--no-sync-dependances-templates" then
    { o with templatesDepSync := false } else o
  let o := if oa.1 = "-u" || oa.1 = "--no-upload-files" then
    { o with filesUpload := false } else o
  if oa.1 = "-e" || oa.1 = "--export-dir" then { o with exportDir := oa.2 } else o

/-- The option loop of `main`: `-h` prints the doc and exits (`none`). -/
def parseLoop : List (String × String) → Options → Option Options
  | [], o => some o
  | oa :: rest, o =>
    if oa.1 = "-h" || oa.1 = "--help" then none
    else parseLoop rest (applyOpt o oa)

/-- The options `main` ends up running with: parse all flags starting from
`DEFAULT_OPTIONS`, then apply the coherence fix
`if templatesDepSync and not templatesSync: templatesSync = True`. -/
def mainOptions (opts : List (String × String)) : Option Options :=
  match parseLoop opts DEFAULT_OPTIONS with
  | none => none
  | some o =>
    some (if o.templatesDepSync && !o.templatesSync then
      { o with templatesSync := true } else o)

/-- A category selector from the JSON configuration. -/
structure CatSelector where
  title : Title
  ns : Int
  recurse : Nat
  deriving Repr, DecidableEq

/-- A modification rule from the JSON configuration: `pagesSel t` is the
oracle for `re.search(mod["pages"], t)` succeeding, `subs` the ordered
`(pattern, repl)` list. -/
structure ModRule where
  pagesSel : Title → Bool
  subs : List (String × String)

/-- The titles contributed by the category loop of `syncAndModifyPages`:
for each selector, the category's own title followed by
`mapTitle(cat.articles(namespaces=ns, recurse=r))`. -/
def catsExpansion (w : World) (cats : List CatSelector) : List Title :=
  cats.foldl (fun acc c => acc ++ (c.title :: w.catMembers c.title c.ns c.recurse)) []

/-- The `pages` list that `syncAndModifyPages` builds before syncing:
the configured page names followed by the category expansion.  No
duplicate elimination is applied. -/
def pagesList (w : World) (pagesName : List Title) (cats : List CatSelector) : List Title :=
  pagesName ++ catsExpansion w cats

/-- The per-rule modification targets:
`list(set(filter(lambda p: re.search(mod["pages"], p), pages)))`. -/
def selectedForModification (pages : List Title) (m : ModRule) : List Title :=
  dedupList (pages.filter m.pagesSel)

/-- The modification loop of `syncAndModifyPages`: for each rule,
`nbMods = modifyPages(...)` — the counter is reassigned, not accumulated,
so the fold keeps only the last rule's count. -/
def modLoop (w : World) (pages : List Title) (mods : List ModRule)
    (d : DstState) : Nat × DstState :=
  mods.foldl (fun acc m =>
    modifyPages w (selectedForModification pages m) m.subs acc.2) (0, d)

/-- The sync and upload phases of `syncPagesWithDependances`, run after
the dependency lists were computed: sync `dependances` under
`templatesDepSync`, `templates` under `templatesSync`, always `pages`,
summing the counts; then upload `files` under `filesUpload`. -/
def syncPhases (w : World) (fuel : Nat) (pages : List Title) (opts : Options)
    (dependances? templates? files? : Option (List Title))
    (dst : DstState) (fs : List Title) :
    Option (PyResult Nat × DstState × List Title) :=
  let phase1 : Option (PyResult Nat × DstState) :=
    if opts.templatesDepSync then
      syncPages w opts.force fuel (dependances?.getD []) dst
    else some (.val 0, dst)
  match phase1 with
  | none => none
  | some (.exn e, d) => some (.exn e, d, fs)
  | some (.val n1, d1) =>
    let phase2 : Option (PyResult Nat × DstState) :=
      if opts.templatesSync then
        syncPages w opts.force fuel (templates?.getD []) d1
      else some (.val 0, d1)
    match phase2 with
    | none => none
    | some (.exn e, d) => some (.exn e, d, fs)
    | some (.val n2, d2) =>
      match syncPages w opts.force fuel pages d2 with
      | none => none
      | some (.exn e, d) => some (.exn e, d, fs)
      | some (.val n3, d3) =>
        let fs' := if opts.filesUpload then uploadFiles w (files?.getD []) fs else fs
        some (.val (n1 + n2 + n3), d3, fs')

/-- `syncPagesWithDependances(siteSrc, siteDst, pages, options)`.

Mirrors the script's statement order: compute `files` under
`filesUpload`, `templates` under `templatesSync`, `dependances` under
`templatesDepSync` (reading the local `templates`, which raises
`UnboundLocalError` when it was never assigned), then run the sync and
upload phases (`syncPhases`).  The `exportPagesTitle` calls and
`gc.collect()` calls only touch files / memory and are omitted.  A
`syncPage` exception propagates out of this function. -/
def syncPagesWithDependances (w : World) (fuel : Nat) (pages : List Title)
    (opts : Options) (dst : DstState) (fs : List Title) :
    Option (PyResult Nat × DstState × List Title) :=
  let files? : Option (List Title) :=
    if opts.filesUpload then some (getFilesFromPages w pages) else none
  let templates? : Option (List Title) :=
    if opts.templatesSync then some (getTemplatesFromPages w pages) else none
  let dep : PyResult (Option (List Title)) :=
    if opts.templatesDepSync then
      match templates? with
      | none => .exn (.unboundLocal "templates")
      | some ts => .val (some (getTemplatesFromPages w ts))
    else .val none
  match dep with
  | .exn e => some (.exn e, dst, fs)
  | .val dependances? => syncPhases w fuel pages opts dependances? templates? files? dst fs

/-- `syncAndModifyPages(...)`: build the pages list from the configured
names and categories, run `syncPagesWithDependances`, then run the
modification loop over the same `pages` list; returns
`(nbPages, nbMods)`. -/
def syncAndModifyPages (w : World) (fuel : Nat) (pagesName : List Title)
    (cats : List CatSelector) (mods : List ModRule) (opts : Options)
    (dst : DstState) (fs : List Title) :
    Option (PyResult (Nat × Nat) × DstState × List Title) :=
  let pages := pagesList w pagesName cats
  match syncPagesWithDependances w fuel pages opts dst fs with
  | none => none
  | some (.exn e, d, f) => some (.exn e, d, f)
  | some (.val nbPages, d, f) =>
    let m := modLoop w pages mods d
    some (.val (nbPages, m.1), m.2, f)

/-- Length of the source redirect chain from a title: `some n` when the
chain reaches a non-redirect after `n` steps within the probe bound. -/
def redDepth (w : World) : Nat → Title → Option Nat
  | 0, _ => none
  | k+1, t =>
    match w.srcRedirect t with
    | none => some 0
    | some u => (redDepth w k u).map Nat.succ

/-- What a second, state-preserving `syncPage` call returns given the
first call's result: a constructor exception repeats, any value becomes
`false`. -/
def settleRes : PyResult Bool → PyResult Bool
  | .exn e => .exn e
  | .val _ => .val false

/-- A well-behaved world in which source title `A` redirects to `B` and
nothing else is special. -/
def w1 : World where
  srcText := fun t => "text:" ++ t
  srcRedirect := fun t => if t = "A" then some "B" else none
  srcTemplates := fun _ => []
  srcFiles := fun _ => []
  catMembers := fun _ _ _ => []
  siteOk := fun _ => true
  writeOk := fun _ => true
  ctorRaisesSrc := fun _ => false
  ctorRaisesDst := fun _ => false
  existsRaises := fun _ => false
  reSub := fun p r t => t ++ "|" ++ p ++ "|" ++ r
  dstFileExists := fun _ => false

/-- A world in which page `A` transcludes template `T`; the regex oracle
rewrites any text to `"MOD"`. -/
def cw1 : World where
  srcText := fun t => t ++ "!"
  srcRedirect := fun _ => none
  srcTemplates := fun t => if t = "A" then ["T"] else []
  srcFiles := fun _ => []
  catMembers := fun _ _ _ => []
  siteOk := fun _ => true
  writeOk := fun _ => true
  ctorRaisesSrc := fun _ => false
  ctorRaisesDst := fun _ => false
  existsRaises := fun _ => false
  reSub := fun _ _ _ => "MOD"
  dstFileExists := fun _ => false

/-- A modification rule whose page selector matches every title. -/
def cex1rule : ModRule where
  pagesSel := fun _ => true
  subs := [("p", "r")]

/-- A world in which constructing `Page(src, "A")` raises. -/
def cw3 : World where
  srcText := fun t => "text:" ++ t
  srcRedirect := fun _ => none
  srcTemplates := fun _ => []
  srcFiles := fun _ => []
  catMembers := fun _ _ _ => []
  siteOk := fun _ => true
  writeOk := fun _ => true
  ctorRaisesSrc := fun t => t = "A"
  ctorRaisesDst := fun _ => false
  existsRaises := fun _ => false
  reSub := fun _ _ t => t
  dstFileExists := fun _ => false

/-- A world in which category `C` has the single member `A`. -/
def cw6 : World where
  srcText := fun t => t
  srcRedirect := fun _ => none
  srcTemplates := fun _ => []
  srcFiles := fun _ => []
  catMembers := fun c _ _ => if c = "C" then ["A"] else []
  siteOk := fun _ => true
  writeOk := fun _ => true
  ctorRaisesSrc := fun _ => false
  ctorRaisesDst := fun _ => false
  existsRaises := fun _ => false
  reSub := fun _ _ t => t
  dstFileExists := fun _ => false

/-- A world whose source has the redirect cycle `A -> B -> A`. -/
def wcyc : World where
  srcText := fun t => t
  srcRedirect := fun t => if t = "A" then some "B" else if t = "B" then some "A" else none
  srcTemplates := fun _ => []
  srcFiles := fun _ => []
  catMembers := fun _ _ _ => []
  siteOk := fun _ => true
  writeOk := fun _ => true
  ctorRaisesSrc := fun _ => false
  ctorRaisesDst := fun _ => false
  existsRaises := fun _ => false
  reSub := fun _ _ t => t
  dstFileExists := fun _ => false

/-- A plain world with no redirects, templates or files. -/
def w5 : World where
  srcText := fun t => "text:" ++ t
  srcRedirect := fun _ => none
  srcTemplates := fun _ => []
  srcFiles := fun _ => []
  catMembers := fun _ _ _ => []
  siteOk := fun _ => true
  writeOk := fun _ => true
  ctorRaisesSrc := fun _ => false
  ctorRaisesDst := fun _ => false
  existsRaises := fun _ => false
  reSub := fun _ _ _ => "MOD"
  dstFileExists := fun _ => false

/-- A rule selecting exactly title `A`. -/
def r5a : ModRule where
  pagesSel := fun t => t == "A"
  subs := [("x", "y")]

/-- A rule selecting no title at all. -/
def r5b : ModRule where
  pagesSel := fun _ => false
  subs := [("x", "y")]

/-- Options with template-dependency sync on but template sync off —
exactly what the coherence fix in `main` is meant to rule out. -/
def optsBad : Options :=
  { DEFAULT_OPTIONS with templatesSync := false }

/-! ### Basic lemmas about the destination store and deduplication -/

theorem getPage_writePage_self (d : DstState) (t : Title) (v : String) :
    getPage (writePage d t v) t = some v := by
  simp [getPage, writePage]

theorem getPage_writePage_ne (d : DstState) (t x : Title) (v : String) (h : t ≠ x) :
    getPage (writePage d t v) x = getPage d x := by
  simp [getPage, writePage, h]

theorem isSome_getPage_writePage (d : DstState) (t x : Title) (v : String)
    (h : (getPage d x).isSome = true) :
    (getPage (writePage d t v) x).isSome = true := by
  by_cases htx : t = x <;> simp [getPage, writePage, htx, h]

theorem mem_dedupList {x : Title} {l : List Title} : x ∈ dedupList l ↔ x ∈ l := by
  induction l with
  | nil => simp [dedupList]
  | cons t ts ih =>
    simp only [dedupList, List.mem_cons]
    by_cases h : t ∈ dedupList ts
    · rw [if_pos h]
      constructor
      · intro hx
        exact Or.inr (ih.mp hx)
      · intro hx
        rcases hx with hx | hx
        · rw [hx]
          exact h
        · exact ih.mpr hx
    · rw [if_neg h]
      simp only [List.mem_cons, ih]

theorem nodup_dedupList (l : List Title) : (dedupList l).Nodup := by
  induction l with
  | nil => simp [dedupList]
  | cons t ts ih =>
    simp only [dedupList]
    by_cases h : t ∈ dedupList ts
    · rw [if_pos h]
      exact ih
    · rw [if_neg h]
      exact List.Nodup.cons h ih

/-! ### Case analysis on one `syncPage` step -/

theorem syncPage_succ (w : World) (force : Bool) (fuel : Nat) (cr : Bool)
    (title : Title) (dst : DstState) :
    syncPage w force (fuel+1) cr title dst =
      if w.ctorRaisesSrc title || w.ctorRaisesDst title then
        some (.exn (.pageCtor title), dst)
      else if !force && w.existsRaises title then
        some (.val false, dst)
      else if !force && (getPage dst title).isSome then
        some (.val false, dst)
      else if w.siteOk title then
        match (match w.srcRedirect title with
               | none => (some (.val false, dst) : Option (PyResult Bool × DstState))
               | some tgt => syncPage w force fuel false tgt dst) with
        | none => none
        | some (.exn _, d) => some (.val false, d)
        | some (.val _, d) =>
          if w.writeOk title then
            some (.val true, writePage d title (w.srcText title))
          else
            some (.val false, d)
      else
        some (.val false, dst) := rfl

/-- Exhaustive description of a `syncPage` call at positive fuel that
returned (`some`).  Each disjunct records the branch conditions of the
source together with the produced result and destination state. -/
theorem syncPage_succ_cases {w : World} {force : Bool} {f : Nat} {cr : Bool}
    {t : Title} {d : DstState} {r : PyResult Bool} {d' : DstState}
    (h : syncPage w force (f+1) cr t d = some (r, d')) :
    ((w.ctorRaisesSrc t || w.ctorRaisesDst t) = true ∧
      r = .exn (.pageCtor t) ∧ d' = d) ∨
    ((w.ctorRaisesSrc t || w.ctorRaisesDst t) = false ∧
      (!force && w.existsRaises t) = true ∧ r = .val false ∧ d' = d) ∨
    ((w.ctorRaisesSrc t || w.ctorRaisesDst t) = false ∧
      (!force && w.existsRaises t) = false ∧
      (!force && (getPage d t).isSome) = true ∧ r = .val false ∧ d' = d) ∨
    ((w.ctorRaisesSrc t || w.ctorRaisesDst t) = false ∧
      (!force && w.existsRaises t) = false ∧
      (!force && (getPage d t).isSome) = false ∧ w.siteOk t = false ∧
      r = .val false ∧ d' = d) ∨
    ((w.ctorRaisesSrc t || w.ctorRaisesDst t) = false ∧
      (!force && w.existsRaises t) = false ∧
      (!force && (getPage d t).isSome) = false ∧ w.siteOk t = true ∧
      w.srcRedirect t = none ∧ w.writeOk t = true ∧
      r = .val true ∧ d' = writePage d t (w.srcText t)) ∨
    ((w.ctorRaisesSrc t || w.ctorRaisesDst t) = false ∧
      (!force && w.existsRaises t) = false ∧
      (!force && (getPage d t).isSome) = false ∧ w.siteOk t = true ∧
      w.srcRedirect t = none ∧ w.writeOk t = false ∧
      r = .val false ∧ d' = d) ∨
    (∃ tgt e di, (w.ctorRaisesSrc t || w.ctorRaisesDst t) = false ∧
      (!force && w.existsRaises t) = false ∧
      (!force && (getPage d t).isSome) = false ∧ w.siteOk t = true ∧
      w.srcRedirect t = some tgt ∧
      syncPage w force f false tgt d = some (.exn e, di) ∧
      r = .val false ∧ d' = di) ∨
    (∃ tgt b di, (w.ctorRaisesSrc t || w.ctorRaisesDst t) = false ∧
      (!force && w.existsRaises t) = false ∧
      (!force && (getPage d t).isSome) = false ∧ w.siteOk t = true ∧
      w.srcRedirect t = some tgt ∧
      syncPage w force f false tgt d = some (.val b, di) ∧
      ((w.writeOk t = true ∧ r = .val true ∧ d' = writePage di t (w.srcText t)) ∨
       (w.writeOk t = false ∧ r = .val false ∧ d' = di))) := by
  rw [syncPage_succ] at h
  by_cases h1 : (w.ctorRaisesSrc t || w.ctorRaisesDst t) = true
  · rw [if_pos h1] at h
    simp only [Option.some.injEq, Prod.mk.injEq] at h
    exact Or.inl ⟨h1, h.1.symm, h.2.symm⟩
  · have h1' : (w.ctorRaisesSrc t || w.ctorRaisesDst t) = false :=
      Bool.not_eq_true _ ▸ eq_false_of_ne_true h1
    rw [if_neg h1] at h
    by_cases h2 : (!force && w.existsRaises t) = true
    · rw [if_pos h2] at h
      simp only [Option.some.injEq, Prod.mk.injEq] at h
      exact Or.inr (Or.inl ⟨h1', h2, h.1.symm, h.2.symm⟩)
    · have h2' : (!force && w.existsRaises t) = false := eq_false_of_ne_true h2
      rw [if_neg h2] at h
      by_cases h3 : (!force && (getPage d t).isSome) = true
      · rw [if_pos h3] at h
        simp only [Option.some.injEq, Prod.mk.injEq] at h
        exact Or.inr (Or.inr (Or.inl ⟨h1', h2', h3, h.1.symm, h.2.symm⟩))
      · have h3' : (!force && (getPage d t).isSome) = false := eq_false_of_ne_true h3
        rw [if_neg h3] at h
        by_cases h4 : w.siteOk t = true
        · rw [if_pos h4] at h
          cases hsr : w.srcRedirect t with
          | none =>
            rw [hsr] at h
            dsimp only at h
            by_cases h5 : w.writeOk t = true
            · rw [if_pos h5] at h
              simp only [Option.some.injEq, Prod.mk.injEq] at h
              exact Or.inr (Or.inr (Or.inr (Or.inr (Or.inl
                ⟨h1', h2', h3', h4, rfl, h5, h.1.symm, h.2.symm⟩))))
            · have h5' : w.writeOk t = false := eq_false_of_ne_true h5
              rw [if_neg h5] at h
              simp only [Option.some.injEq, Prod.mk.injEq] at h
              exact Or.inr (Or.inr (Or.inr (Or.inr (Or.inr (Or.inl
                ⟨h1', h2', h3', h4, rfl, h5', h.1.symm, h.2.symm⟩)))))
          | some tgt =>
            rw [hsr] at h
            dsimp only at h
            cases hrec : syncPage w force f false tgt d with
            | none =>
              rw [hrec] at h
              dsimp only at h
              exact Option.noConfusion h
            | some p =>
              obtain ⟨ir, di⟩ := p
              rw [hrec] at h
              cases ir with
              | exn e =>
                dsimp only at h
                simp only [Option.some.injEq, Prod.mk.injEq] at h
                exact Or.inr (Or.inr (Or.inr (Or.inr (Or.inr (Or.inr (Or.inl
                  ⟨tgt, e, di, h1', h2', h3', h4, rfl, hrec, h.1.symm, h.2.symm⟩))))))
              | val b =>
                dsimp only at h
                by_cases h5 : w.writeOk t = true
                · rw [if_pos h5] at h
                  simp only [Option.some.injEq, Prod.mk.injEq] at h
                  exact Or.inr (Or.inr (Or.inr (Or.inr (Or.inr (Or.inr (Or.inr
                    ⟨tgt, b, di, h1', h2', h3', h4, rfl, hrec,
                      Or.inl ⟨h5, h.1.symm, h.2.symm⟩⟩))))))
                · have h5' : w.writeOk t = false := eq_false_of_ne_true h5
                  rw [if_neg h5] at h
                  simp only [Option.some.injEq, Prod.mk.injEq] at h
                  exact Or.inr (Or.inr (Or.inr (Or.inr (Or.inr (Or.inr (Or.inr
                    ⟨tgt, b, di, h1', h2', h3', h4, rfl, hrec,
                      Or.inr ⟨h5', h.1.symm, h.2.symm⟩⟩))))))
        · have h4' : w.siteOk t = false := eq_false_of_ne_true h4
          rw [if_neg h4] at h
          simp only [Option.some.injEq, Prod.mk.injEq] at h
          exact Or.inr (Or.inr (Or.inr (Or.inl ⟨h1', h2', h3', h4', h.1.symm, h.2.symm⟩)))

/-! ### Structural lemmas about `syncPage` -/

/-- `syncPage` never removes a destination page. -/
theorem syncPage_mono {w : World} {force : Bool} :
    ∀ {fuel : Nat} {cr : Bool} {t : Title} {d : DstState} {r : PyResult Bool}
      {d' : DstState},
      syncPage w force fuel cr t d = some (r, d') →
      ∀ x, (getPage d x).isSome = true → (getPage d' x).isSome = true := by
  intro fuel
  induction fuel with
  | zero =>
    intro cr t d r d' h
    simp [syncPage] at h
  | succ f ih =>
    intro cr t d r d' h x hx
    rcases syncPage_succ_cases h with
      ⟨_, _, rfl⟩ | ⟨_, _, _, rfl⟩ | ⟨_, _, _, _, rfl⟩ | ⟨_, _, _, _, _, rfl⟩ |
      ⟨_, _, _, _, _, _, _, rfl⟩ | ⟨_, _, _, _, _, _, _, rfl⟩ |
      ⟨tgt, e, di, _, _, _, _, _, hrec, _, rfl⟩ |
      ⟨tgt, b, di, _, _, _, _, _, hrec, hlast⟩
    · exact hx
    · exact hx
    · exact hx
    · exact hx
    · exact isSome_getPage_writePage _ _ _ _ hx
    · exact hx
    · exact ih hrec x hx
    · rcases hlast with ⟨_, _, rfl⟩ | ⟨_, _, rfl⟩
      · exact isSome_getPage_writePage _ _ _ _ (ih hrec x hx)
      · exact ih hrec x hx

/-- With `force = false`, `syncPage` never overwrites an existing
destination page: every present entry keeps its value. -/
theorem syncPage_preserve {w : World} :
    ∀ {fuel : Nat} {cr : Bool} {t : Title} {d : DstState} {r : PyResult Bool}
      {d' : DstState},
      syncPage w false fuel cr t d = some (r, d') →
      ∀ x v, getPage d x = some v → getPage d' x = some v := by
  intro fuel
  induction fuel with
  | zero =>
    intro cr t d r d' h
    simp [syncPage] at h
  | succ f ih =>
    intro cr t d r d' h x v hx
    rcases syncPage_succ_cases h with
      ⟨_, _, rfl⟩ | ⟨_, _, _, rfl⟩ | ⟨_, _, _, _, rfl⟩ | ⟨_, _, _, _, _, rfl⟩ |
      ⟨_, _, h3, _, _, _, _, rfl⟩ | ⟨_, _, _, _, _, _, _, rfl⟩ |
      ⟨tgt, e, di, _, _, _, _, _, hrec, _, rfl⟩ |
      ⟨tgt, b, di, _, _, h3, _, _, hrec, hlast⟩
    · exact hx
    · exact hx
    · exact hx
    · exact hx
    · have hnone : getPage d t = none := by
        cases hgd : getPage d t <;> simp [hgd] at h3 ⊢
      have htx : t ≠ x := by
        intro hcontr
        rw [hcontr] at hnone
        rw [hnone] at hx
        exact Option.noConfusion hx
      rw [getPage_writePage_ne _ _ _ _ htx]
      exact hx
    · exact hx
    · exact ih hrec x v hx
    · have hnone : getPage d t = none := by
        cases hgd : getPage d t <;> simp [hgd] at h3 ⊢
      have htx : t ≠ x := by
        intro hcontr
        rw [hcontr] at hnone
        rw [hnone] at hx
        exact Option.noConfusion hx
      rcases hlast with ⟨_, _, rfl⟩ | ⟨_, _, rfl⟩
      · rw [getPage_writePage_ne _ _ _ _ htx]
        exact ih hrec x v hx
      · exact ih hrec x v hx

/-- Every destination page that `syncPage` creates carries the source
text of its own title. -/
theorem syncPage_sourced {w : World} {force : Bool} :
    ∀ {fuel : Nat} {cr : Bool} {t : Title} {d : DstState} {r : PyResult Bool}
      {d' : DstState},
      syncPage w force fuel cr t d = some (r, d') →
      ∀ x, getPage d x = none → ∀ v, getPage d' x = some v → v = w.srcText x := by
  intro fuel
  induction fuel with
  | zero =>
    intro cr t d r d' h
    simp [syncPage] at h
  | succ f ih =>
    intro cr t d r d' h x hx v hv
    rcases syncPage_succ_cases h with
      ⟨_, _, rfl⟩ | ⟨_, _, _, rfl⟩ | ⟨_, _, _, _, rfl⟩ | ⟨_, _, _, _, _, rfl⟩ |
      ⟨_, _, _, _, _, _, _, rfl⟩ | ⟨_, _, _, _, _, _, _, rfl⟩ |
      ⟨tgt, e, di, _, _, _, _, _, hrec, _, rfl⟩ |
      ⟨tgt, b, di, _, _, _, _, _, hrec, hlast⟩
    · rw [hx] at hv
      exact Option.noConfusion hv
    · rw [hx] at hv
      exact Option.noConfusion hv
    · rw [hx] at hv
      exact Option.noConfusion hv
    · rw [hx] at hv
      exact Option.noConfusion hv
    · by_cases htx : t = x
      · rw [htx] at hv
        rw [getPage_writePage_self] at hv
        injection hv with h2
        exact h2.symm
      · rw [getPage_writePage_ne _ _ _ _ htx, hx] at hv
        exact Option.noConfusion hv
    · rw [hx] at hv
      exact Option.noConfusion hv
    · exact ih hrec x hx v hv
    · rcases hlast with ⟨_, _, rfl⟩ | ⟨_, _, rfl⟩
      · by_cases htx : t = x
        · rw [htx] at hv
          rw [getPage_writePage_self] at hv
          injection hv with h2
          exact h2.symm
        · rw [getPage_writePage_ne _ _ _ _ htx] at hv
          exact ih hrec x hx v hv
      · exact ih hrec x hx v hv

/-- The only exception that can escape `syncPage` is a page-constructor
exception on its own title, raised before anything was written — and only
when one of the two `Page(...)` constructors actually raises. -/
theorem syncPage_exn_shape {w : World} {force : Bool} {fuel : Nat} {cr : Bool}
    {t : Title} {d : DstState} {e : PyExn} {d' : DstState}
    (h : syncPage w force fuel cr t d = some (.exn e, d')) :
    e = .pageCtor t ∧ d' = d ∧ (w.ctorRaisesSrc t || w.ctorRaisesDst t) = true := by
  cases fuel with
  | zero => simp [syncPage] at h
  | succ f =>
    rcases syncPage_succ_cases h with
      ⟨h1, hr, rfl⟩ | ⟨_, _, hr, rfl⟩ | ⟨_, _, _, hr, rfl⟩ | ⟨_, _, _, _, hr, rfl⟩ |
      ⟨_, _, _, _, _, _, hr, rfl⟩ | ⟨_, _, _, _, _, _, hr, rfl⟩ |
      ⟨tgt, e2, di, _, _, _, _, _, _, hr, rfl⟩ |
      ⟨tgt, b, di, _, _, _, _, _, _, hlast⟩
    · exact ⟨(PyResult.exn.injEq _ _ ▸ hr : _), rfl, h1⟩
    · exact PyResult.noConfusion hr
    · exact PyResult.noConfusion hr
    · exact PyResult.noConfusion hr
    · exact PyResult.noConfusion hr
    · exact PyResult.noConfusion hr
    · exact PyResult.noConfusion hr
    · rcases hlast with ⟨_, hr, rfl⟩ | ⟨_, hr, rfl⟩
      · exact PyResult.noConfusion hr
      · exact PyResult.noConfusion hr

/-- After a completed `force = false` call, a second call on the same
title from any destination state containing the first call's final pages
is a no-op: it repeats a constructor exception, or returns `false`,
leaving the state unchanged. -/
theorem syncPage_post_stable {w : World} :
    ∀ {fuel : Nat} {cr : Bool} {t : Title} {d : DstState} {r : PyResult Bool}
      {d' : DstState},
      syncPage w false fuel cr t d = some (r, d') →
      ∀ e : DstState,
        (∀ x, (getPage d' x).isSome = true → (getPage e x).isSome = true) →
        ∀ cr', syncPage w false fuel cr' t e = some (settleRes r, e) := by
  intro fuel
  induction fuel with
  | zero =>
    intro cr t d r d' h
    simp [syncPage] at h
  | succ f ih =>
    intro cr t d r d' h e he cr'
    rcases syncPage_succ_cases h with
      ⟨h1, rfl, rfl⟩ | ⟨h1, h2, rfl, rfl⟩ | ⟨h1, h2, h3, rfl, rfl⟩ |
      ⟨h1, h2, h3, h4, rfl, rfl⟩ |
      ⟨h1, h2, h3, h4, hsr, h5, rfl, rfl⟩ | ⟨h1, h2, h3, h4, hsr, h5, rfl, rfl⟩ |
      ⟨tgt, e2, di, h1, h2, h3, h4, hsr, hrec, rfl, rfl⟩ |
      ⟨tgt, b, di, h1, h2, h3, h4, hsr, hrec, hlast⟩
    · simp [syncPage_succ, h1, settleRes]
    · have h2' : w.existsRaises t = true := by simpa using h2
      simp [syncPage_succ, h1, h2', settleRes]
    · have h2' : w.existsRaises t = false := by simpa using h2
      have hdt : (getPage d' t).isSome = true := by simpa using h3
      have het := he t hdt
      simp [syncPage_succ, h1, h2', het, settleRes]
    · have h2' : w.existsRaises t = false := by simpa using h2
      by_cases hE : (getPage e t).isSome = true
      · simp [syncPage_succ, h1, h2', hE, settleRes]
      · simp [syncPage_succ, h1, h2', eq_false_of_ne_true hE, h4, settleRes]
    · have h2' : w.existsRaises t = false := by simpa using h2
      have het := he t (by simp [getPage_writePage_self])
      simp [syncPage_succ, h1, h2', het, settleRes]
    · have h2' : w.existsRaises t = false := by simpa using h2
      by_cases hE : (getPage e t).isSome = true
      · simp [syncPage_succ, h1, h2', hE, settleRes]
      · simp [syncPage_succ, h1, h2', eq_false_of_ne_true hE, h4, hsr, h5, settleRes]
    · have h2' : w.existsRaises t = false := by simpa using h2
      have hrec2 := ih hrec e he false
      by_cases hE : (getPage e t).isSome = true
      · simp [syncPage_succ, h1, h2', hE, settleRes]
      · simp [syncPage_succ, h1, h2', eq_false_of_ne_true hE, h4, hsr, hrec2,
          settleRes]
    · have h2' : w.existsRaises t = false := by simpa using h2
      rcases hlast with ⟨h5, rfl, rfl⟩ | ⟨h5, rfl, rfl⟩
      · have het := he t (by simp [getPage_writePage_self])
        simp [syncPage_succ, h1, h2', het, settleRes]
      · have hrec2 := ih hrec e he false
        by_cases hE : (getPage e t).isSome = true
        · simp [syncPage_succ, h1, h2', hE, settleRes]
        · simp [syncPage_succ, h1, h2', eq_false_of_ne_true hE, h4, hsr, hrec2, h5,
            settleRes]

/-! ### Structural lemmas about `syncPages` -/

/-- Decomposition of a successful `syncPages` run over a nonempty list. -/
theorem syncPages_cons_val {w : World} {force : Bool} {fuel : Nat} {t : Title}
    {ts : List Title} {d : DstState} {n : Nat} {d₁ : DstState}
    (h : syncPages w force fuel (t :: ts) d = some (.val n, d₁)) :
    ∃ b da n2, syncPage w force fuel true t d = some (.val b, da) ∧
      syncPages w force fuel ts da = some (.val n2, d₁) ∧
      n = (if b then 1 else 0) + n2 := by
  simp only [syncPages] at h
  cases hc : syncPage w force fuel true t d with
  | none =>
    rw [hc] at h
    exact Option.noConfusion h
  | some p =>
    obtain ⟨rb, da⟩ := p
    rw [hc] at h
    cases rb with
    | exn e2 =>
      dsimp only at h
      simp at h
    | val b =>
      dsimp only at h
      cases ht : syncPages w force fuel ts da with
      | none =>
        rw [ht] at h
        exact Option.noConfusion h
      | some q =>
        obtain ⟨rn, d₂⟩ := q
        rw [ht] at h
        cases rn with
        | exn e2 =>
          dsimp only at h
          simp at h
        | val n2 =>
          dsimp only at h
          simp only [Option.some.injEq, Prod.mk.injEq, PyResult.val.injEq] at h
          refine ⟨b, da, n2, rfl, ?_, h.1.symm⟩
          rw [← h.2]
          exact ht

/-- The only exception that can escape a `syncPages` batch is a
page-constructor exception from `syncPage`. -/
theorem syncPages_exn_shape {w : World} {force : Bool} {fuel : Nat} :
    ∀ {P : List Title} {d : DstState} {e : PyExn} {d' : DstState},
      syncPages w force fuel P d = some (.exn e, d') → ∃ t, e = .pageCtor t := by
  intro P
  induction P with
  | nil =>
    intro d e d' h
    simp [syncPages] at h
  | cons t ts ih =>
    intro d e d' h
    simp only [syncPages] at h
    cases hc : syncPage w force fuel true t d with
    | none =>
      rw [hc] at h
      exact Option.noConfusion h
    | some p =>
      obtain ⟨rb, da⟩ := p
      rw [hc] at h
      cases rb with
      | exn e2 =>
        dsimp only at h
        simp only [Option.some.injEq, Prod.mk.injEq, PyResult.exn.injEq] at h
        obtain ⟨rfl, _⟩ := h
        exact ⟨t, (syncPage_exn_shape hc).1⟩
      | val b =>
        dsimp only at h
        cases ht : syncPages w force fuel ts da with
        | none =>
          rw [ht] at h
          exact Option.noConfusion h
        | some q =>
          obtain ⟨rn, d₂⟩ := q
          rw [ht] at h
          cases rn with
          | exn e2 =>
            dsimp only at h
            simp only [Option.some.injEq, Prod.mk.injEq, PyResult.exn.injEq] at h
            obtain ⟨rfl, _⟩ := h
            exact ih ht
          | val n2 =>
            dsimp only at h
            simp at h

/-- `syncPages` never removes a destination page. -/
theorem syncPages_mono {w : World} {force : Bool} {fuel : Nat} :
    ∀ {P : List Title} {d : DstState} {r : PyResult Nat} {d' : DstState},
      syncPages w force fuel P d = some (r, d') →
      ∀ x, (getPage d x).isSome = true → (getPage d' x).isSome = true := by
  intro P
  induction P with
  | nil =>
    intro d r d' h x hx
    simp only [syncPages, Option.some.injEq, Prod.mk.injEq] at h
    rw [← h.2]
    exact hx
  | cons t ts ih =>
    intro d r d' h x hx
    simp only [syncPages] at h
    cases hc : syncPage w force fuel true t d with
    | none =>
      rw [hc] at h
      exact Option.noConfusion h
    | some p =>
      obtain ⟨rb, da⟩ := p
      rw [hc] at h
      cases rb with
      | exn e2 =>
        dsimp only at h
        simp only [Option.some.injEq, Prod.mk.injEq] at h
        rw [← h.2]
        exact syncPage_mono hc x hx
      | val b =>
        dsimp only at h
        cases ht : syncPages w force fuel ts da with
        | none =>
          rw [ht] at h
          exact Option.noConfusion h
        | some q =>
          obtain ⟨rn, d₂⟩ := q
          rw [ht] at h
          have hda := syncPage_mono hc x hx
          cases rn with
          | exn e2 =>
            dsimp only at h
            simp only [Option.some.injEq, Prod.mk.injEq] at h
            rw [← h.2]
            exact ih ht x hda
          | val n2 =>
            dsimp only at h
            simp only [Option.some.injEq, Prod.mk.injEq] at h
            rw [← h.2]
            exact ih ht x hda

/-- With `force = false`, a `syncPages` batch keeps every existing
destination page with its value. -/
theorem syncPages_preserve {w : World} {fuel : Nat} :
    ∀ {P : List Title} {d : DstState} {r : PyResult Nat} {d' : DstState},
      syncPages w false fuel P d = some (r, d') →
      ∀ x v, getPage d x = some v → getPage d' x = some v := by
  intro P
  induction P with
  | nil =>
    intro d r d' h x v hx
    simp only [syncPages, Option.some.injEq, Prod.mk.injEq] at h
    rw [← h.2]
    exact hx
  | cons t ts ih =>
    intro d r d' h x v hx
    simp only [syncPages] at h
    cases hc : syncPage w false fuel true t d with
    | none =>
      rw [hc] at h
      exact Option.noConfusion h
    | some p =>
      obtain ⟨rb, da⟩ := p
      rw [hc] at h
      cases rb with
      | exn e2 =>
        dsimp only at h
        simp only [Option.some.injEq, Prod.mk.injEq] at h
        rw [← h.2]
        exact syncPage_preserve hc x v hx
      | val b =>
        dsimp only at h
        cases ht : syncPages w false fuel ts da with
        | none =>
          rw [ht] at h
          exact Option.noConfusion h
        | some q =>
          obtain ⟨rn, d₂⟩ := q
          rw [ht] at h
          have hda := syncPage_preserve hc x v hx
          cases rn with
          | exn e2 =>
            dsimp only at h
            simp only [Option.some.injEq, Prod.mk.injEq] at h
            rw [← h.2]
            exact ih ht x v hda
          | val n2 =>
            dsimp only at h
            simp only [Option.some.injEq, Prod.mk.injEq] at h
            rw [← h.2]
            exact ih ht x v hda

/-! ### Claim C2: idempotence of `syncPages` with `force = false` -/

/-- Claim C2: for every page set `P` synced with `force = false`, a second
`syncPages` run from the state the first run produced returns exactly 0
(and changes nothing): every page the first run wrote now exists on the
destination, and `syncPage` returns `false` for an existing destination
page when `force` is false; pages whose write failed fail identically
again.  The first run's return value is, by definition of `syncPages`,
the number of titles whose `syncPage` call returned `true`, i.e. the
number of successfully written pages. -/
theorem claim_C2_idempotence (w : World) (fuel : Nat) :
    ∀ (P : List Title) (d : DstState) (n₁ : Nat) (d₁ : DstState),
      syncPages w false fuel P d = some (.val n₁, d₁) →
      syncPages w false fuel P d₁ = some (.val 0, d₁) := by
  intro P
  induction P with
  | nil =>
    intro d n₁ d₁ h
    simp only [syncPages, Option.some.injEq, Prod.mk.injEq] at h
    rw [← h.2]
    simp [syncPages]
  | cons t ts ih =>
    intro d n₁ d₁ h
    obtain ⟨b, da, n2, hc, ht, hn⟩ := syncPages_cons_val h
    have hmono : ∀ x, (getPage da x).isSome = true → (getPage d₁ x).isSome = true :=
      fun x hx => syncPages_mono ht x hx
    have hstab := syncPage_post_stable hc d₁ hmono true
    have htail := ih da n2 d₁ ht
    simp only [syncPages]
    rw [hstab]
    dsimp only [settleRes]
    rw [htail]
    rfl

/-! ### Claim C7: redirect propagation -/

/-- A completed `force = false` `syncPage` call on a well-behaved,
non-redirect title `B` (constructors and `exists()` do not raise, the
destination resolves the right site, the write succeeds) leaves `B`
present — with `B`'s source text whenever `B` was absent before. -/
theorem syncPage_target_synced {w : World} {B : Title}
    (hctorB : w.ctorRaisesSrc B = false) (hctorB' : w.ctorRaisesDst B = false)
    (hexB : w.existsRaises B = false) (hsiteB : w.siteOk B = true)
    (hwB : w.writeOk B = true) (hrB : w.srcRedirect B = none)
    {fuel : Nat} {cr : Bool} {d : DstState} {r : PyResult Bool} {d' : DstState}
    (h : syncPage w false fuel cr B d = some (r, d')) :
    (getPage d' B).isSome = true ∧
      (getPage d B = none → getPage d' B = some (w.srcText B)) := by
  cases fuel with
  | zero => simp [syncPage] at h
  | succ f =>
    rcases syncPage_succ_cases h with
      ⟨h1, _, rfl⟩ | ⟨_, h2, _, rfl⟩ | ⟨_, _, h3, _, rfl⟩ | ⟨_, _, _, h4, _, rfl⟩ |
      ⟨_, _, _, _, hsr, h5, _, rfl⟩ | ⟨_, _, _, _, hsr, h5, _, rfl⟩ |
      ⟨tgt, e2, di, _, _, _, _, hsr, _, _, rfl⟩ |
      ⟨tgt, b, di, _, _, _, _, hsr, _, hlast⟩
    · rw [hctorB, hctorB'] at h1
      simp at h1
    · rw [hexB] at h2
      simp at h2
    · constructor
      · simpa using h3
      · intro hnone
        have hs : (getPage d' B).isSome = true := by simpa using h3
        rw [hnone] at hs
        simp at hs
    · rw [hsiteB] at h4
      simp at h4
    · constructor
      · simp [getPage_writePage_self]
      · intro _
        exact getPage_writePage_self _ _ _
    · rw [hwB] at h5
      simp at h5
    · rw [hrB] at hsr
      exact Option.noConfusion hsr
    · rw [hrB] at hsr
      exact Option.noConfusion hsr

/-- If a `force = false` `syncPage` call (on any title) makes `A` newly
present, then by the end of that call `A`'s redirect target `B` is
present too: the write of `A` only happens after the recursive sync of
`B`. -/
theorem syncPage_newA_target {w : World} {A B : Title} (hAB : A ≠ B)
    (hrA : w.srcRedirect A = some B)
    (hctorB : w.ctorRaisesSrc B = false) (hctorB' : w.ctorRaisesDst B = false)
    (hexB : w.existsRaises B = false) (hsiteB : w.siteOk B = true)
    (hwB : w.writeOk B = true) (hrB : w.srcRedirect B = none) :
    ∀ {fuel : Nat} {cr : Bool} {t : Title} {d : DstState} {r : PyResult Bool}
      {d' : DstState},
      syncPage w false fuel cr t d = some (r, d') →
      (getPage d' A).isSome = true →
      (getPage d A).isSome = true ∨ (getPage d' B).isSome = true := by
  intro fuel
  induction fuel with
  | zero =>
    intro cr t d r d' h
    simp [syncPage] at h
  | succ f ih =>
    intro cr t d r d' h hA
    rcases syncPage_succ_cases h with
      ⟨_, _, rfl⟩ | ⟨_, _, _, rfl⟩ | ⟨_, _, _, _, rfl⟩ | ⟨_, _, _, _, _, rfl⟩ |
      ⟨_, _, _, _, hsr, _, _, rfl⟩ | ⟨_, _, _, _, _, _, _, rfl⟩ |
      ⟨tgt, e2, di, _, _, _, _, hsr, hrec, _, rfl⟩ |
      ⟨tgt, b, di, _, _, _, _, hsr, hrec, hlast⟩
    · exact Or.inl hA
    · exact Or.inl hA
    · exact Or.inl hA
    · exact Or.inl hA
    · by_cases htA : t = A
      · rw [htA, hrA] at hsr
        exact Option.noConfusion hsr
      · rw [getPage_writePage_ne _ _ _ _ htA] at hA
        exact Or.inl hA
    · exact Or.inl hA
    · exact ih hrec hA
    · rcases hlast with ⟨h5, _, rfl⟩ | ⟨h5, _, rfl⟩
      · by_cases htA : t = A
        · subst htA
          rw [hrA] at hsr
          injection hsr with htgt
          subst htgt
          have hBs := (syncPage_target_synced hctorB hctorB' hexB hsiteB hwB hrB
            hrec).1
          exact Or.inr (isSome_getPage_writePage _ _ _ _ hBs)
        · rw [getPage_writePage_ne _ _ _ _ htA] at hA
          rcases ih hrec hA with hl | hr
          · exact Or.inl hl
          · exact Or.inr (isSome_getPage_writePage _ _ _ _ hr)
      · exact ih hrec hA

/-- One `force = false` `syncPage` step preserves the redirect-propagation
invariant: either `B` already carries its source text on the destination,
or neither `A` nor `B` is present yet. -/
theorem syncPage_C7_inv {w : World} {A B : Title} (hAB : A ≠ B)
    (hrA : w.srcRedirect A = some B)
    (hctorB : w.ctorRaisesSrc B = false) (hctorB' : w.ctorRaisesDst B = false)
    (hexB : w.existsRaises B = false) (hsiteB : w.siteOk B = true)
    (hwB : w.writeOk B = true) (hrB : w.srcRedirect B = none)
    {fuel : Nat} {cr : Bool} {t : Title} {d : DstState} {r : PyResult Bool}
    {d' : DstState}
    (h : syncPage w false fuel cr t d = some (r, d'))
    (hinv : getPage d B = some (w.srcText B) ∨
      (getPage d A = none ∧ getPage d B = none)) :
    getPage d' B = some (w.srcText B) ∨
      (getPage d' A = none ∧ getPage d' B = none) := by
  rcases hinv with hL | ⟨hA0, hB0⟩
  · exact Or.inl (syncPage_preserve h B _ hL)
  · cases hB' : getPage d' B with
    | some v =>
      left
      have hveq : v = w.srcText B := syncPage_sourced h B hB0 v hB'
      rw [hveq]
    | none =>
      right
      refine ⟨?_, rfl⟩
      cases hA' : getPage d' A with
      | none => rfl
      | some v2 =>
        have hres : (getPage d A).isSome = true ∨ (getPage d' B).isSome = true := by
          apply syncPage_newA_target hAB hrA hctorB hctorB' hexB hsiteB hwB hrB h
          rw [hA']
          rfl
        rcases hres with hl | hr
        · rw [hA0] at hl
          simp at hl
        · rw [hB'] at hr
          simp at hr

/-- Batch version of the redirect-propagation argument: once `A` itself is
processed somewhere in the batch, `B` carries its source text in the final
state. -/
theorem syncPages_C7_main {w : World} {A B : Title} (hAB : A ≠ B)
    (hrA : w.srcRedirect A = some B)
    (hctorA : w.ctorRaisesSrc A = false) (hctorA' : w.ctorRaisesDst A = false)
    (hexA : w.existsRaises A = false) (hsiteA : w.siteOk A = true)
    (hctorB : w.ctorRaisesSrc B = false) (hctorB' : w.ctorRaisesDst B = false)
    (hexB : w.existsRaises B = false) (hsiteB : w.siteOk B = true)
    (hwB : w.writeOk B = true) (hrB : w.srcRedirect B = none) {fuel : Nat} :
    ∀ {P : List Title} {d : DstState} {n : Nat} {d₁ : DstState},
      syncPages w false fuel P d = some (.val n, d₁) →
      (getPage d B = some (w.srcText B) ∨
        (getPage d A = none ∧ getPage d B = none)) →
      A ∈ P →
      getPage d₁ B = some (w.srcText B) := by
  intro P
  induction P with
  | nil =>
    intro d n d₁ h hinv hmem
    exact absurd hmem (List.not_mem_nil A)
  | cons t ts ih =>
    intro d n d₁ h hinv hmem
    obtain ⟨b, da, n2, hc, ht, hn⟩ := syncPages_cons_val h
    rcases List.mem_cons.mp hmem with rfl | hmem'
    · have hLa : getPage da B = some (w.srcText B) := by
        rcases hinv with hL | ⟨hA0, hB0⟩
        · exact syncPage_preserve hc B _ hL
        · rcases fuel with _ | f
          · simp [syncPage] at hc
          rcases syncPage_succ_cases hc with
            ⟨h1, _, rfl⟩ | ⟨_, h2, _, rfl⟩ | ⟨_, _, h3, _, rfl⟩ |
            ⟨_, _, _, h4, _, rfl⟩ |
            ⟨_, _, _, _, hsr, _, _, rfl⟩ | ⟨_, _, _, _, hsr, _, _, rfl⟩ |
            ⟨tgt, e2, di, _, _, _, _, hsr, hrec, _, rfl⟩ |
            ⟨tgt, b2, di, _, _, _, _, hsr, hrec, hlast⟩
          · rw [hctorA, hctorA'] at h1
            simp at h1
          · rw [hexA] at h2
            simp at h2
          · rw [hA0] at h3
            simp at h3
          · rw [hsiteA] at h4
            simp at h4
          · rw [hrA] at hsr
            exact Option.noConfusion hsr
          · rw [hrA] at hsr
            exact Option.noConfusion hsr
          · rw [hrA] at hsr
            injection hsr with htgt
            subst htgt
            obtain ⟨_, _, hcond⟩ := syncPage_exn_shape hrec
            rw [hctorB, hctorB'] at hcond
            simp at hcond
          · rw [hrA] at hsr
            injection hsr with htgt
            subst htgt
            have hBs := (syncPage_target_synced hctorB hctorB' hexB hsiteB hwB hrB
              hrec).2 hB0
            rcases hlast with ⟨h5, _, rfl⟩ | ⟨h5, _, rfl⟩
            · rw [getPage_writePage_ne _ _ _ _ hAB]
              exact hBs
            · exact hBs
      exact syncPages_preserve ht B _ hLa
    · have hinv' := syncPage_C7_inv hAB hrA hctorB hctorB' hexB hsiteB hwB hrB
        hc hinv
      exact ih ht hinv' hmem'

/-- Claim C7: if source title `A` redirects to source title `B`, `A` is
among the pages to sync, both are absent from the destination, and the
provider behaves on `A` and `B` (no exceptions, right site, `B`'s write
succeeds, `B` not itself a redirect), then after the completed
`force = false` run `B` exists on the destination with `B`'s own source
text — even though `B` need not occur in the page list: `syncPage` on `A`
recursively synchronizes the redirect target `B` with the same force flag
before writing `A`. -/
theorem claim_C7_redirect_propagation (w : World) (fuel : Nat)
    (P : List Title) (d : DstState) (n : Nat) (d₁ : DstState) (A B : Title)
    (hAB : A ≠ B)
    (hrA : w.srcRedirect A = some B) (hrB : w.srcRedirect B = none)
    (hctorA : w.ctorRaisesSrc A = false) (hctorA' : w.ctorRaisesDst A = false)
    (hexA : w.existsRaises A = false) (hsiteA : w.siteOk A = true)
    (hctorB : w.ctorRaisesSrc B = false) (hctorB' : w.ctorRaisesDst B = false)
    (hexB : w.existsRaises B = false) (hsiteB : w.siteOk B = true)
    (hwB : w.writeOk B = true)
    (hA0 : getPage d A = none) (hB0 : getPage d B = none)
    (hmem : A ∈ P)
    (hrun : syncPages w false fuel P d = some (.val n, d₁)) :
    getPage d₁ B = some (w.srcText B) :=
  syncPages_C7_main hAB hrA hctorA hctorA' hexA hsiteA hctorB hctorB' hexB
    hsiteB hwB hrB hrun (Or.inr ⟨hA0, hB0⟩) hmem

/-! ### Claim C10: termination and the unused `checkRedirect` flag -/

/-- The `checkRedirect` parameter of `syncPage` is accepted but never
consulted. -/
theorem syncPage_checkRedirect_irrelevant (w : World) (force : Bool)
    (fuel : Nat) (cr cr' : Bool) (t : Title) (d : DstState) :
    syncPage w force fuel cr t d = syncPage w force fuel cr' t d := by
  cases fuel with
  | zero => rfl
  | succ f => rfl

/-- `syncPage` terminates whenever the source redirect chain from the
title is finite and acyclic: any fuel exceeding the chain length
suffices. -/
theorem syncPage_terminates {w : World} {force : Bool} :
    ∀ {fuel k : Nat} {t : Title} {n : Nat},
      redDepth w k t = some n → n < fuel →
      ∀ (cr : Bool) (d : DstState), syncPage w force fuel cr t d ≠ none := by
  intro fuel
  induction fuel with
  | zero =>
    intro k t n hd hn
    exact absurd hn (Nat.not_lt_zero n)
  | succ f ih =>
    intro k t n hd hn cr d hnone
    rcases k with _ | k'
    · simp [redDepth] at hd
    rw [syncPage_succ] at hnone
    by_cases h1 : (w.ctorRaisesSrc t || w.ctorRaisesDst t) = true
    · rw [if_pos h1] at hnone
      exact Option.noConfusion hnone
    rw [if_neg h1] at hnone
    by_cases h2 : (!force && w.existsRaises t) = true
    · rw [if_pos h2] at hnone
      exact Option.noConfusion hnone
    rw [if_neg h2] at hnone
    by_cases h3 : (!force && (getPage d t).isSome) = true
    · rw [if_pos h3] at hnone
      exact Option.noConfusion hnone
    rw [if_neg h3] at hnone
    by_cases h4 : w.siteOk t = true
    case neg =>
      rw [if_neg h4] at hnone
      exact Option.noConfusion hnone
    rw [if_pos h4] at hnone
    cases hsr : w.srcRedirect t with
    | none =>
      rw [hsr] at hnone
      dsimp only at hnone
      by_cases h5 : w.writeOk t = true
      · rw [if_pos h5] at hnone
        exact Option.noConfusion hnone
      · rw [if_neg h5] at hnone
        exact Option.noConfusion hnone
    | some u =>
      simp only [redDepth] at hd
      rw [hsr] at hd hnone
      dsimp only at hd hnone
      cases hdu : redDepth w k' u with
      | none =>
        rw [hdu] at hd
        exact Option.noConfusion hd
      | some m =>
        rw [hdu] at hd
        dsimp only [Option.map] at hd
        have hmn : Nat.succ m = n := by injection hd
        cases hr2 : syncPage w force f false u d with
        | none =>
          exact ih hdu (by omega) false d hr2
        | some p =>
          obtain ⟨rr, dd⟩ := p
          rw [hr2] at hnone
          cases rr with
          | exn e2 =>
            dsimp only at hnone
            exact Option.noConfusion hnone
          | val bb =>
            dsimp only at hnone
            by_cases h5 : w.writeOk t = true
            · rw [if_pos h5] at hnone
              exact Option.noConfusion hnone
            · rw [if_neg h5] at hnone
              exact Option.noConfusion hnone

/-- A two-title redirect cycle on the source makes `syncPage` diverge
(with `force`, so the destination-existence early exit never fires): the
recursion exhausts every fuel bound. -/
theorem syncPage_cycle_diverges {w : World} {A B : Title}
    (hctorA : w.ctorRaisesSrc A = false) (hctorA' : w.ctorRaisesDst A = false)
    (hctorB : w.ctorRaisesSrc B = false) (hctorB' : w.ctorRaisesDst B = false)
    (hsiteA : w.siteOk A = true) (hsiteB : w.siteOk B = true)
    (hrA : w.srcRedirect A = some B) (hrB : w.srcRedirect B = some A) :
    ∀ (fuel : Nat) (cr : Bool) (d : DstState),
      syncPage w true fuel cr A d = none ∧ syncPage w true fuel cr B d = none := by
  intro fuel
  induction fuel with
  | zero =>
    intro cr d
    exact ⟨rfl, rfl⟩
  | succ f ih =>
    intro cr d
    constructor
    · have hin := (ih false d).2
      simp [syncPage_succ, hctorA, hctorA', hrA, hsiteA, hin]
    · have hin := (ih false d).1
      simp [syncPage_succ, hctorB, hctorB', hrB, hsiteB, hin]

/-- Claim C10: (1) the `checkRedirect` argument is accepted but never
consulted — the result of `syncPage` does not depend on it; (2) `syncPage`
terminates for every title whose source redirect chain is finite and
acyclic (its length bounds the recursion depth, so any larger fuel
suffices); (3) on a source with the redirect cycle `A -> B -> A`,
`syncPage` diverges: it exhausts every fuel bound. -/
theorem claim_C10_termination :
    (∀ (w : World) (force : Bool) (fuel : Nat) (cr cr' : Bool) (t : Title)
        (d : DstState),
      syncPage w force fuel cr t d = syncPage w force fuel cr' t d) ∧
    (∀ (w : World) (force : Bool) (fuel k : Nat) (t : Title) (n : Nat),
      redDepth w k t = some n → n < fuel →
      ∀ (cr : Bool) (d : DstState), syncPage w force fuel cr t d ≠ none) ∧
    (∀ (fuel : Nat) (cr : Bool) (d : DstState),
      syncPage wcyc true fuel cr "A" d = none) := by
  refine ⟨syncPage_checkRedirect_irrelevant, ?_, ?_⟩
  · intro w force fuel k t n hd hn cr d
    exact syncPage_terminates hd hn cr d
  · intro fuel cr d
    exact (@syncPage_cycle_diverges wcyc "A" "B" (by decide) (by decide)
      (by decide) (by decide) (by decide) (by decide) (by decide) (by decide)
      fuel cr d).1

/-- Witness for claim C10: a one-step redirect chain (`"A" -> "B"` in
`w1`) has depth 1, and fuel 2 suffices for `syncPage` to return. -/
theorem claim_C10_termination_witness :
    syncPage w1 false 2 true "A" [] ≠ none :=
  claim_C10_termination.2.1 w1 false 2 2 "A" 1 (by decide) (by decide) true []

/-! ### Claim C2 witness -/

/-- Witness for claim C2: in `w1`, syncing `["A"]` (which also drags in
the redirect target `"B"`) gives 1 on the first run; the second run from
the resulting state gives exactly 0. -/
theorem claim_C2_idempotence_witness :
    syncPages w1 false 2 ["A"] [("A", "text:A"), ("B", "text:B")] =
      some (.val 0, [("A", "text:A"), ("B", "text:B")]) :=
  claim_C2_idempotence w1 2 ["A"] [] 1 [("A", "text:A"), ("B", "text:B")]
    (by decide)

/-! ### Claim C7 witness -/

/-- Witness for claim C7: syncing `["A"]` in `w1` (where `A` redirects to
`B`, both absent from the destination) leaves `B` on the destination with
`B`'s source text. -/
theorem claim_C7_redirect_propagation_witness :
    getPage [("A", "text:A"), ("B", "text:B")] "B" = some (w1.srcText "B") :=
  claim_C7_redirect_propagation w1 2 ["A"] [] 1
    [("A", "text:A"), ("B", "text:B")] "A" "B" (by decide) (by decide)
    (by decide) (by decide) (by decide) (by decide) (by decide) (by decide)
    (by decide) (by decide) (by decide) (by decide) (by decide) (by decide)
    (by decide) (by decide)

/-! ### Claim C3: exception handling in `syncPage` -/

/-- Claim C3 counterexample: the two `Page(...)` constructions happen
before the `try` block, so a constructor exception escapes `syncPage` (an
`.exn` result rather than a `false` return) and aborts the enclosing
`syncPages` batch: with batch `["A", "B"]` it stops at `"A"`, and `"B"`
is never processed — although `"B"` alone would sync fine. -/
theorem claim_C3_counterexample :
    syncPage cw3 false 1 true "A" [] = some (.exn (.pageCtor "A"), []) ∧
    syncPages cw3 false 1 ["A", "B"] [] = some (.exn (.pageCtor "A"), []) ∧
    syncPages cw3 false 1 ["B"] [] = some (.val 1, [("B", "text:B")]) := by
  refine ⟨?_, ?_, ?_⟩ <;> decide

/-- Claim C3 amended: every exception raised inside `syncPage`'s `try`
block is caught and converted into a `false` return, so whenever the two
page-object constructors do not raise, `syncPage` returns a value and
never propagates an exception to the enclosing batch.  (Constructor
exceptions, raised before the `try`, do propagate — see the
counterexample.) -/
theorem claim_C3_exceptions_caught (w : World) (force : Bool) (fuel : Nat)
    (cr : Bool) (t : Title) (d : DstState) (r : PyResult Bool) (d' : DstState)
    (h : syncPage w force fuel cr t d = some (r, d'))
    (hcs : w.ctorRaisesSrc t = false) (hcd : w.ctorRaisesDst t = false) :
    ∃ b, r = .val b := by
  cases r with
  | val b => exact ⟨b, rfl⟩
  | exn e =>
    obtain ⟨_, _, hcond⟩ := syncPage_exn_shape h
    rw [hcs, hcd] at hcond
    simp at hcond

/-- Witness for the amended claim C3, instantiated on `w1`. -/
theorem claim_C3_exceptions_caught_witness :
    ∃ b, (PyResult.val true : PyResult Bool) = .val b :=
  claim_C3_exceptions_caught w1 false 2 true "A" [] (.val true)
    [("A", "text:A"), ("B", "text:B")] (by decide) (by decide) (by decide)

/-! ### Claim C4: the `-t` flag -/

/-- Claim C4 (code bug): running `main` with `-t` alone does NOT yield
`templatesSync = false` and `templatesDepSync = false`.  The flag only
clears `templatesSync`; `templatesDepSync` keeps its default `true`, and
the coherence fix at the end of `main` then switches `templatesSync` back
on — the script's usage text says `-t` involves
`--no-sync-dependances-templates`, but the code does the opposite. -/
theorem claim_C4_t_flag_eval :
    mainOptions [("-t", "")] =
      some { force := false, templatesSync := true, templatesDepSync := true,
             filesUpload := true, exportDir := "." } := by
  decide

/-! ### Claim C1: the modification selector's domain -/

/-- Claim C1 counterexample: page list `["A"]`, where source `A`
transcludes template `T`; a single rule whose selector matches every
title.  The run syncs `T` in the templates phase and the selector matches
`T`, yet `T` is not selected for modification, and after the run `T`
still carries its raw synced text (`"T!"`) while `A` was modified. -/
theorem claim_C1_counterexample :
    getTemplatesFromPages cw1 ["A"] = ["T"] ∧
    cex1rule.pagesSel "T" = true ∧
    "T" ∉ selectedForModification (pagesList cw1 ["A"] []) cex1rule ∧
    syncAndModifyPages cw1 2 ["A"] [] [cex1rule] DEFAULT_OPTIONS [] [] =
      some (.val (2, 1), [("A", "MOD"), ("A", "A!"), ("T", "T!")], []) ∧
    getPage [("A", "MOD"), ("A", "A!"), ("T", "T!")] "T" = some "T!" := by
  refine ⟨?_, ?_, ?_, ?_, ?_⟩ <;> decide

/-- Claim C1 amended: the modification phase applies each rule's page
selector only over the `pages` list (the explicit page names plus the
category expansion), not over the union of all synced titles: a title is
selected for a rule exactly when it occurs in the pages list and matches
the rule's selector; titles synced only as templates or dependencies are
never selected. -/
theorem claim_C1_selector_domain (w : World) (pagesName : List Title)
    (cats : List CatSelector) (m : ModRule) (t : Title) :
    t ∈ selectedForModification (pagesList w pagesName cats) m ↔
      (t ∈ pagesList w pagesName cats ∧ m.pagesSel t = true) := by
  unfold selectedForModification
  rw [mem_dedupList]
  exact List.mem_filter

/-! ### Claim C6: no deduplication of the pages list -/

/-- Claim C6 counterexample: explicit page `"A"` plus a category `"C"`
whose members include `"A"` produce the pages-phase list
`["A", "C", "A"]` — `"A"` occurs twice, `syncPage` runs once per
occurrence, and with `force` the sync count is 3 for 2 distinct titles
(`"A"` is written twice). -/
theorem claim_C6_counterexample :
    pagesList cw6 ["A"] [⟨"C", 0, 0⟩] = ["A", "C", "A"] ∧
    (pagesList cw6 ["A"] [⟨"C", 0, 0⟩]).count "A" = 2 ∧
    syncPages cw6 true 2 (pagesList cw6 ["A"] [⟨"C", 0, 0⟩]) [] =
      some (.val 3, [("A", "A"), ("C", "C"), ("A", "A")]) := by
  refine ⟨?_, ?_, ?_⟩ <;> decide

/-- Claim C6 amended: the pages list driven through the pages sync phase
is the plain concatenation of the explicit page names with the category
expansion — every occurrence is preserved (no deduplication), and each
occurrence is passed to `syncPage`.  The `list(set(...))` deduplication
is applied only to the template and file lists. -/
theorem claim_C6_no_dedup :
    (∀ (w : World) (pagesName : List Title) (cats : List CatSelector)
        (t : Title),
      (pagesList w pagesName cats).count t =
        pagesName.count t + (catsExpansion w cats).count t) ∧
    (∀ (w : World) (ps : List Title),
      (getTemplatesFromPages w ps).Nodup ∧ (getFilesFromPages w ps).Nodup) := by
  constructor
  · intro w pagesName cats t
    simp [pagesList, List.count_append]
  · intro w ps
    exact ⟨nodup_dedupList _, nodup_dedupList _⟩

/-! ### Claim C8: sequential substitution law -/

/-- Claim C8: for a destination page with text `T` and the ordered
substitution list `[(p1, r1), (p2, r2)]`, the text `modifyPage` writes
back is `reSub p2 r2 (reSub p1 r1 T)`: the substitutions are applied
sequentially in list order, each operating on the previous one's output,
not independently on the original text. -/
theorem claim_C8_sequential_substitution (w : World) (title : Title)
    (d : DstState) (T p1 r1 p2 r2 : String)
    (hT : getPage d title = some T) (hw : w.writeOk title = true) :
    (modifyPage w title [(p1, r1), (p2, r2)] d).1 = true ∧
    getPage (modifyPage w title [(p1, r1), (p2, r2)] d).2 title =
      some (w.reSub p2 r2 (w.reSub p1 r1 T)) := by
  unfold modifyPage
  rw [hT]
  simp [hw, getPage_writePage_self]

/-- Witness for claim C8, instantiated on `w1`. -/
theorem claim_C8_sequential_substitution_witness :
    (modifyPage w1 "A" [("p1", "r1"), ("p2", "r2")] [("A", "T0")]).1 = true ∧
    getPage (modifyPage w1 "A" [("p1", "r1"), ("p2", "r2")] [("A", "T0")]).2 "A" =
      some (w1.reSub "p2" "r2" (w1.reSub "p1" "r1" "T0")) :=
  claim_C8_sequential_substitution w1 "A" [("A", "T0")] "T0" "p1" "r1" "p2" "r2"
    (by decide) (by decide)

/-! ### Claim C9: no unassigned-local read under the option invariant -/

/-- Every exception escaping the phase chain comes from `syncPage`'s page
constructors — never an `UnboundLocalError`. -/
theorem syncPhases_exn_shape {w : World} {fuel : Nat} {pages : List Title}
    {opts : Options} {deps tpls fls : Option (List Title)} {dst : DstState}
    {fs : List Title} {e : PyExn} {d : DstState} {f : List Title}
    (h : syncPhases w fuel pages opts deps tpls fls dst fs =
      some (.exn e, d, f)) :
    ∃ t, e = .pageCtor t := by
  simp only [syncPhases] at h
  cases hp1 : (if opts.templatesDepSync then
      syncPages w opts.force fuel (deps.getD []) dst
    else some (.val 0, dst)) with
  | none =>
    rw [hp1] at h
    exact Option.noConfusion h
  | some p =>
    obtain ⟨r1, d1⟩ := p
    rw [hp1] at h
    cases r1 with
    | exn e1 =>
      dsimp only at h
      simp only [Option.some.injEq, Prod.mk.injEq, PyResult.exn.injEq] at h
      obtain ⟨rfl, _⟩ := h
      by_cases hdep : opts.templatesDepSync = true
      · rw [if_pos hdep] at hp1
        exact syncPages_exn_shape hp1
      · rw [if_neg hdep] at hp1
        simp at hp1
    | val n1 =>
      dsimp only at h
      cases hp2 : (if opts.templatesSync then
          syncPages w opts.force fuel (tpls.getD []) d1
        else some (.val 0, d1)) with
      | none =>
        rw [hp2] at h
        exact Option.noConfusion h
      | some q =>
        obtain ⟨r2, d2⟩ := q
        rw [hp2] at h
        cases r2 with
        | exn e2 =>
          dsimp only at h
          simp only [Option.some.injEq, Prod.mk.injEq, PyResult.exn.injEq] at h
          obtain ⟨rfl, _⟩ := h
          by_cases htpl : opts.templatesSync = true
          · rw [if_pos htpl] at hp2
            exact syncPages_exn_shape hp2
          · rw [if_neg htpl] at hp2
            simp at hp2
        | val n2 =>
          dsimp only at h
          cases hp3 : syncPages w opts.force fuel pages d2 with
          | none =>
            rw [hp3] at h
            exact Option.noConfusion h
          | some q3 =>
            obtain ⟨r3, d3⟩ := q3
            rw [hp3] at h
            cases r3 with
            | exn e3 =>
              dsimp only at h
              simp only [Option.some.injEq, Prod.mk.injEq, PyResult.exn.injEq]
                at h
              obtain ⟨rfl, _⟩ := h
              exact syncPages_exn_shape hp3
            | val n3 =>
              dsimp only at h
              simp at h

/-- Claim C9: `syncPagesWithDependances` reads an unassigned local —
Python's `UnboundLocalError`, on the local `templates` in the dependency
phase — exactly when `templatesDepSync` is set while `templatesSync` is
not.  In particular, under the option invariant
`templatesDepSync → templatesSync` (what `main`'s coherence fix
establishes; the `files` local is guarded by the same `filesUpload` flag
that guards its use), no unassigned local is ever read. -/
theorem claim_C9_unbound_local (w : World) (fuel : Nat) (pages : List Title)
    (opts : Options) (dst : DstState) (fs : List Title) :
    (∃ v d f, syncPagesWithDependances w fuel pages opts dst fs =
        some (.exn (.unboundLocal v), d, f)) ↔
      (opts.templatesDepSync = true ∧ opts.templatesSync = false) := by
  constructor
  · rintro ⟨v, d, f, h⟩
    by_cases hdep : opts.templatesDepSync = true
    · by_cases htpl : opts.templatesSync = true
      · exfalso
        simp only [syncPagesWithDependances] at h
        rw [if_pos hdep, if_pos htpl] at h
        dsimp only at h
        obtain ⟨t, ht⟩ := syncPhases_exn_shape h
        exact PyExn.noConfusion ht
      · exact ⟨hdep, eq_false_of_ne_true htpl⟩
    · exfalso
      simp only [syncPagesWithDependances] at h
      rw [if_neg hdep] at h
      dsimp only at h
      obtain ⟨t, ht⟩ := syncPhases_exn_shape h
      exact PyExn.noConfusion ht
  · rintro ⟨hdep, htpl⟩
    refine ⟨"templates", dst, fs, ?_⟩
    simp [syncPagesWithDependances, hdep, htpl]

/-! ### Claim C5: only the last rule's count is reported -/

/-- Claim C5: splitting the non-empty rule list as `mods ++ [m]`, the
modification loop's result is exactly `modifyPages` for the last rule
`m`, run from the state the earlier rules left behind — their counts are
discarded, not accumulated; and the `pagesModified` component returned by
`syncAndModifyPages` is precisely that last-rule count. -/
theorem claim_C5_last_rule_count :
    (∀ (w : World) (pages : List Title) (mods : List ModRule) (m : ModRule)
        (d : DstState),
      modLoop w pages (mods ++ [m]) d =
        modifyPages w (selectedForModification pages m) m.subs
          (modLoop w pages mods d).2) ∧
    (∀ (w : World) (fuel : Nat) (pagesName : List Title)
        (cats : List CatSelector) (mods : List ModRule) (m : ModRule)
        (opts : Options) (dst : DstState) (fs : List Title) (np : Nat)
        (dmid : DstState) (fmid : List Title),
      syncPagesWithDependances w fuel (pagesList w pagesName cats) opts dst fs =
        some (.val np, dmid, fmid) →
      syncAndModifyPages w fuel pagesName cats (mods ++ [m]) opts dst fs =
        some (.val (np,
            (modifyPages w
              (selectedForModification (pagesList w pagesName cats) m) m.subs
              (modLoop w (pagesList w pagesName cats) mods dmid).2).1),
          (modifyPages w
            (selectedForModification (pagesList w pagesName cats) m) m.subs
            (modLoop w (pagesList w pagesName cats) mods dmid).2).2, fmid)) := by
  have hsnoc : ∀ (w : World) (pages : List Title) (mods : List ModRule)
      (m : ModRule) (d : DstState),
      modLoop w pages (mods ++ [m]) d =
        modifyPages w (selectedForModification pages m) m.subs
          (modLoop w pages mods d).2 := by
    intro w pages mods m d
    simp [modLoop, List.foldl_append]
  refine ⟨hsnoc, ?_⟩
  intro w fuel pagesName cats mods m opts dst fs np dmid fmid h
  simp only [syncAndModifyPages]
  rw [h]
  dsimp only
  rw [hsnoc]

/-- Witness for claim C5: in `w5`, the first rule modifies `"A"` (count
1) but the reported count comes from the second rule, which selects
nothing. -/
theorem claim_C5_last_rule_count_witness :
    syncAndModifyPages w5 2 ["A"] [] ([r5a] ++ [r5b]) DEFAULT_OPTIONS [] [] =
      some (.val (1,
          (modifyPages w5
            (selectedForModification (pagesList w5 ["A"] []) r5b) r5b.subs
            (modLoop w5 (pagesList w5 ["A"] []) [r5a] [("A", "text:A")]).2).1),
        (modifyPages w5
          (selectedForModification (pagesList w5 ["A"] []) r5b) r5b.subs
          (modLoop w5 (pagesList w5 ["A"] []) [r5a] [("A", "text:A")]).2).2,
        []) :=
  claim_C5_last_rule_count.2 w5 2 ["A"] [] [r5a] r5b DEFAULT_OPTIONS [] [] 1
    [("A", "text:A")] [] (by decide)

/-- Witness for claim C9: with template-dependency sync on but template
sync off, the run raises `UnboundLocalError` on `templates`. -/
theorem claim_C9_unbound_local_witness :
    ∃ v d f, syncPagesWithDependances w1 0 [] optsBad [] [] =
      some (.exn (.unboundLocal v), d, f) :=
  (claim_C9_unbound_local w1 0 [] optsBad [] []).mpr ⟨rfl, rfl⟩

end WikimediaSync
